import Mathlib

/-!
Verification of `src/simul/reproducible_builds/crawler.py` against its
specification.  The Python source is shallowly embedded below: pure text
transforms become functions on `String`/`List Char`, the line-parsing loop
becomes a fold of an explicit `step` over the report lines, and the fallible
container interaction of `compile_bin` is modelled with an `Option` oracle
for the caught try-block.  Machine details that Python hides (CPython string
methods) are modelled charwise at the `List Char` level, with a comment at
each definition recording the exact source expression it embeds.
-/

namespace ReproCrawler

/-- Charwise model of Python `s.replace(c, '')` for a one-character pattern:
it deletes every occurrence of `c` and keeps everything else. -/
def replaceDrop (c : Char) (l : List Char) : List Char :=
  l.filter (fun a => a != c)

/-- Charwise model of Python `s.replace(c, d)` for one-character pattern and
replacement: every occurrence of `c` becomes `d`. -/
def replaceChar (c d : Char) (l : List Char) : List Char :=
  l.map (fun a => if a == c then d else a)

/-- crawler.py lines 29-35, `parse_dpnd(li)`:
`li.replace(' ', '')`, then `li.replace(',', ' ')`, then
`li.replace(')', '')`, then `li.replace('(', '')`. -/
def parse_dpnd (li : String) : String :=
  ⟨replaceDrop '(' (replaceDrop ')' (replaceChar ',' ' ' (replaceDrop ' ' li.toList)))⟩

/-- Python `str.split()` with no argument: split on runs of whitespace and
drop the empty pieces.  `acc` holds the (reversed) current word. -/
def wordsAux : List Char → List Char → List (List Char)
  | [], acc => if acc.isEmpty then [] else [acc.reverse]
  | a :: rest, acc =>
      if a.isWhitespace then
        if acc.isEmpty then wordsAux rest [] else acc.reverse :: wordsAux rest []
      else
        wordsAux rest (a :: acc)

/-- Model of Python `line.split()` (crawler.py line 156). -/
def pySplit (s : String) : List String :=
  (wordsAux s.toList []).map (fun w => ⟨w⟩)

/-- Python `str.split(sep)` for a one-character separator `c`: the pieces
between occurrences of `c`, keeping empty pieces (so the result always has
one more piece than there are occurrences of `c`). -/
def splitCh (c : Char) : List Char → List (List Char)
  | [] => [[]]
  | a :: rest =>
      let r := splitCh c rest
      if a == c then [] :: r else (a :: r.headD []) :: r.tail

/-- Model of Python `s.split(c)` on strings (crawler.py line 161 uses
`words[1].split(':')`). -/
def pySplitOn (c : Char) (s : String) : List String :=
  (splitCh c s.toList).map (fun w => ⟨w⟩)

/-- Python substring containment `sub in s` (crawler.py lines 165, 172). -/
def pyIn (sub s : String) : Bool :=
  decide (sub.toList <:+: s.toList)

/-- Python `s.partition(' ')[0]`: the prefix of `s` before the first space
(the whole of `s` when it has no space); crawler.py line 50. -/
def pyPartitionFst (s : String) : String :=
  ⟨s.toList.takeWhile (fun a => a != ' ')⟩

/-- Round-half-to-even on rationals (the rounding Python's `round` uses,
idealized from binary floating point to exact rationals). -/
def roundHalfToEven (x : ℚ) : ℤ :=
  let f := ⌊x⌋
  let r := x - (f : ℚ)
  if r < 1 / 2 then f
  else if 1 / 2 < r then f + 1
  else if f % 2 = 0 then f else f + 1

/-- Python `round(x, 3)`: round to 3 decimal places, idealized to ℚ. -/
def pyRound3 (x : ℚ) : ℚ :=
  ((roundHalfToEven (x * 1000) : ℚ)) / 1000

/-- crawler.py lines 39-57, `compile_bin(name, bina)`.  The initializers are
`comhash = ''` and `wall_time = cpu_user = cpu_system = -1.0`.  The docker
interaction is modelled by oracles: `hashOut` is the decoded stdout of the
`docker run ... sha256sum` call when the guarded try-block succeeds, and
`none` when any exception is raised there (the bare `except` catches it and
only prints); the six rational arguments are the sampled
`time.perf_counter` / `psutil.cpu_times` values.  On success the hash is
`output.partition(' ')[0]` and the three durations are end-minus-start
differences; every returned time goes through `round(_, 3)`. -/
def compile_bin (hashOut : Option String)
    (wallStart wallEnd cpuUserStart cpuUserEnd cpuSystemStart cpuSystemEnd : ℚ) :
    String × ℚ × ℚ × ℚ :=
  match hashOut with
  | none => ("", pyRound3 (-1), pyRound3 (-1), pyRound3 (-1))
  | some out =>
      (pyPartitionFst out, pyRound3 (wallEnd - wallStart),
        pyRound3 (cpuUserEnd - cpuUserStart), pyRound3 (cpuSystemEnd - cpuSystemStart))

/-- Outcome buckets of the main loop (crawler.py lines 204-213): `hashMatch`
is an append to `hash_match` (tag `'y'`), `hashDiffer` to `hash_differ`
(tag `'n'`), `buildFailed` to `failed` (tag `'f'`). -/
inductive Outcome where
  | hashMatch
  | hashDiffer
  | buildFailed
deriving DecidableEq

/-- crawler.py lines 204-213: the outcome branch of the top-level loop,
`if sha != '' and computed_hash == sha: ... elif computed_hash == '': ...
else: ...` (the elif written as a nested if/else in the source). -/
def classify (sha computed_hash : String) : Outcome :=
  if sha ≠ "" ∧ computed_hash = sha then Outcome.hashMatch
  else if computed_hash = "" then Outcome.buildFailed
  else Outcome.hashDiffer

/-- One entry of the snapshot archive listing: its displayed timestamp
(seconds, after `datetime.strptime`) and its link reference `href`. -/
structure Snapshot where
  time : Int
  href : String
deriving DecidableEq

/-- crawler.py lines 61-90, `find_snapshots(btime, f)`, restricted to its
selection logic: the loop appends each entry with `snaptime < build_time`
to `snapbuf` and breaks at the first entry that is not earlier; then
`snapbuf[-2]` and `snapbuf[-1]` are written (two apt source lines each)
when `len(snapbuf) > 1`, only `snapbuf[-1]` when `len(snapbuf) == 1`, and
nothing (just a printed warning) otherwise.  The function returns the
selected snapshots in the order their source lines are written.  (The body
compares against the global `build_time`, which at the only call site is
the argument `btime`.) -/
def find_snapshots (bt : Int) (snaps : List Snapshot) : List Snapshot :=
  let snapbuf := snaps.takeWhile (fun sn => decide (sn.time < bt))
  if 1 < snapbuf.length then
    [snapbuf.getD (snapbuf.length - 2) ⟨0, ""⟩, snapbuf.getD (snapbuf.length - 1) ⟨0, ""⟩]
  else if snapbuf.length = 1 then
    [snapbuf.getD (snapbuf.length - 1) ⟨0, ""⟩]
  else
    []

/-- The state of the line-parsing loop, crawler.py lines 150-153: the flags
`shaflag`/`dflag`, the captured metadata strings, the `first`/`i` counters
of the dependency phase, and `dep`, the text written to the Dockerfile `f`
during the dependency phase. -/
structure ParseState where
  shaflag : Bool
  dflag : Bool
  version : String
  name : String
  sha : String
  binary : String
  dir : String
  short_version : String
  size : String
  first : Bool
  i : Nat
  dep : String
deriving DecidableEq

/-- crawler.py lines 150-153: `shaflag = dflag = False`,
`version = name = sha = binary = dir = short_version = size = ''`,
`first = True`, `i = 0`. -/
def initState : ParseState :=
  { shaflag := false, dflag := false, version := "", name := "", sha := "",
    binary := "", dir := "", short_version := "", size := "", first := true,
    i := 0, dep := "" }

/-- crawler.py lines 156-170: the keyword chain of the phase-1 branch, on
`words = line.split()`, guarded by `if len(words):` (the `[]` case).
`Version:` captures `words[1]` as `version` and `words[1].split(':')[1]`
as `short_version` when the value has a colon, else both get `words[1]`;
`Binary:` captures the queried package name `p` when `' ' + p + ' '`
occurs in the line and `words[1]` otherwise; `Source:` captures
`words[1]` as `dir`. -/
def keywordScan (p line : String) (words : List String) (s : ParseState) : ParseState :=
  match words with
  | [] => s
  | w0 :: ws =>
    if w0 = "Version:" then
      let w1 := ws.headD ""
      if ':' ∈ w1.toList then
        { s with version := w1, short_version := (pySplitOn ':' w1).getD 1 "" }
      else
        { s with version := w1, short_version := w1 }
    else if w0 = "Binary:" then
      if pyIn (" " ++ p ++ " ") line then { s with name := p }
      else { s with name := ws.headD "" }
    else if w0 = "Source:" then
      { s with dir := ws.headD "" }
    else s

/-- crawler.py lines 171-176: the armed checksum-line match: while
`shaflag` is set, a line whose third field contains
`name + '_' + short_version` and `.deb` captures hash, size and binary
filename and disarms the flag. -/
def checksumScan (words : List String) (s : ParseState) : ParseState :=
  if s.shaflag = true ∧ 2 < words.length ∧
      pyIn (s.name ++ "_" ++ s.short_version) (words.getD 2 "") = true ∧
      pyIn ".deb" (words.getD 2 "") = true then
    { s with binary := words.getD 2 "", sha := words.getD 0 "",
             size := words.getD 1 "", shaflag := false }
  else s

/-- crawler.py lines 177-180: arming `shaflag` on the literal line
`Checksums-Sha256:` and `dflag` on the literal line
`Installed-Build-Depends:` (checked in this order, after the scans). -/
def armFlags (line : String) (s : ParseState) : ParseState :=
  let s3 := if line = "Checksums-Sha256:" then { s with shaflag := true } else s
  if line = "Installed-Build-Depends:" then { s3 with dflag := true } else s3

/-- crawler.py lines 181-191: the dependency-phase branch: increment `i`,
write a separator (`' \\ \n'` when `i % 3 == 1 and line != ""`, else
`' '`) unless this is the first dependency line, then write
`parse_dpnd(line)`. -/
def depStep (line : String) (s : ParseState) : ParseState :=
  let i := s.i + 1
  let sep : String := if s.first then "" else if i % 3 = 1 ∧ line ≠ "" then " \\ \n" else " "
  { s with i := i, first := false, dep := s.dep ++ sep ++ parse_dpnd line }

/-- crawler.py lines 154-191: one iteration of `for line in lines`, with
`p` the queried package name.  The phase-1 branch (`not dflag`) runs, in
source order, the keyword chain, the checksum-line match and the two
flag-arming comparisons; the other branch is the dependency phase. -/
def step (p : String) (s : ParseState) (line : String) : ParseState :=
  if s.dflag then
    depStep line s
  else
    armFlags line (checksumScan (pySplit line) (keywordScan p line (pySplit line) s))

/-- The whole line-parsing loop over a build-info report (crawler.py
lines 149-191), starting from the freshly initialized state. -/
def parseReport (p : String) (lines : List String) : ParseState :=
  lines.foldl (step p) initState

/-- Spec language (§3, §4.3): the substring of `v` strictly after the first
`':'` (empty when `v` has no colon). -/
def afterFirstColon (v : String) : String :=
  ⟨(v.toList.dropWhile (fun a => a != ':')).tail⟩

/-- Spec language: the prefix of `v` strictly before its first `':'`
(all of `v` when it has no colon). -/
def upToFirstColon (v : String) : String :=
  ⟨v.toList.takeWhile (fun a => a != ':')⟩

/-- Spec language (§3, glossary): the version with any epoch prefix — the
part up to and including the first `':'` — removed. -/
def stripEpoch (v : String) : String :=
  if ':' ∈ v.toList then afterFirstColon v else v

/-- The separator the dependency phase writes before its `k`-th accumulated
line (1-based, `k ≥ 2`): a Dockerfile line continuation when `k % 3 = 1`
and the line is non-blank, a single space otherwise. -/
def depSep (k : Nat) (l : String) : String :=
  if k % 3 = 1 ∧ l ≠ "" then " \\ \n" else " "

/-- Closed form of the dependency text for lines `k, k+1, ...` of the
dependency phase, each preceded by its separator. -/
def depTextFrom (k : Nat) : List String → String
  | [] => ""
  | l :: ls => depSep k l ++ parse_dpnd l ++ depTextFrom (k + 1) ls

/-- Closed form of the whole dependency text: the first accumulated line has
no separator before it, later ones get `depSep`. -/
def depText : List String → String
  | [] => ""
  | l :: ls => parse_dpnd l ++ depTextFrom 2 ls

/-- Spec language (§4.2): the entries of the listing strictly earlier than
the build timestamp. -/
def qualifying (bt : Int) (snaps : List Snapshot) : List Snapshot :=
  snaps.filter (fun sn => decide (sn.time < bt))

theorem toList_mk (l : List Char) : (⟨l⟩ : String).toList = l := rfl

theorem replaceChar_eq_self (c d : Char) (l : List Char) (h : c ∉ l) :
    replaceChar c d l = l := by
  unfold replaceChar
  refine (List.map_congr_left ?_).trans (List.map_id l)
  intro a ha
  have hne : a ≠ c := fun e => h (e ▸ ha)
  simp [hne]

theorem replaceDrop_eq_self (c : Char) (l : List Char) (h : c ∉ l) :
    replaceDrop c l = l := by
  unfold replaceDrop
  refine List.filter_eq_self.mpr ?_
  intro a ha
  have hne : a ≠ c := fun e => h (e ▸ ha)
  simp [hne]

theorem mem_replaceDrop_ne (c : Char) (l : List Char) (a : Char)
    (ha : a ∈ replaceDrop c l) : a ∈ l ∧ a ≠ c := by
  unfold replaceDrop at ha
  have h := List.mem_filter.mp ha
  refine ⟨h.1, ?_⟩
  have := h.2
  simpa using this

/-- Claim C1: the outcome classification is `match` iff the expected hash is
non-empty and the computed hash equals it; `failed` whenever the computed
hash is empty, regardless of the expected one; and `differ` in all remaining
cases (computed non-empty and either unequal to expected or with an empty
expected) — so an empty expected hash never yields `match`. -/
theorem classify_cases (expected computed : String) :
    (classify expected computed = Outcome.hashMatch ↔ expected ≠ "" ∧ computed = expected) ∧
    (computed = "" → classify expected computed = Outcome.buildFailed) ∧
    (computed ≠ "" → computed ≠ expected ∨ expected = "" →
      classify expected computed = Outcome.hashDiffer) := by
  unfold classify
  split_ifs with h1 h2 <;> refine ⟨?_, ?_, ?_⟩ <;> simp_all

theorem classify_cases_witness :
    classify "abc" "" = Outcome.buildFailed :=
  (classify_cases "abc" "").2.1 rfl

/-- Claim C2 (amended): on the line `"libfoo (>= 1.0), libbar"` the
dependency normalizer returns `"libfoo>=1.0 libbar"` — interior spaces
removed, the comma turned into a single space, and the parenthesis
characters deleted, but the version-constraint text between them retained. -/
theorem parse_dpnd_example_eval :
    parse_dpnd "libfoo (>= 1.0), libbar" = "libfoo>=1.0 libbar" := by
  decide

/-- Claim C2 counterexample: the normalizer does not remove the contents of
the parenthesized version constraint, so the output is not
`"libfoo libbar"` as the claim states. -/
theorem parse_dpnd_example_ne_spec :
    parse_dpnd "libfoo (>= 1.0), libbar" ≠ "libfoo libbar" := by
  decide

/-- Claim C8 counterexample: the normalizer is not idempotent on every
string: a comma becomes a space on the first pass and that space is deleted
by the second pass. -/
theorem parse_dpnd_not_idempotent :
    parse_dpnd (parse_dpnd "libfoo, libbar") ≠ parse_dpnd "libfoo, libbar" := by
  decide

/-- Claim C8 (amended): the dependency normalizer is idempotent on every
input containing no comma (in particular on its own output whenever that
output has no space): `normalize(normalize(x)) = normalize(x)` for
comma-free `x`. -/
theorem parse_dpnd_idempotent_no_comma (x : String) (h : ',' ∉ x.toList) :
    parse_dpnd (parse_dpnd x) = parse_dpnd x := by
  have main : ∀ l : List Char, ',' ∉ l →
      replaceDrop '(' (replaceDrop ')' (replaceChar ',' ' ' (replaceDrop ' '
        (replaceDrop '(' (replaceDrop ')' (replaceChar ',' ' ' (replaceDrop ' ' l))))))) =
      replaceDrop '(' (replaceDrop ')' (replaceChar ',' ' ' (replaceDrop ' ' l))) := by
    intro l hl
    have hcomma : ',' ∉ replaceDrop ' ' l := fun hmem =>
      hl (mem_replaceDrop_ne ' ' l ',' hmem).1
    rw [replaceChar_eq_self ',' ' ' (replaceDrop ' ' l) hcomma]
    set m := replaceDrop '(' (replaceDrop ')' (replaceDrop ' ' l)) with hm
    have hmem : ∀ a ∈ m, a ≠ ' ' ∧ a ≠ ',' ∧ a ≠ ')' ∧ a ≠ '(' := by
      intro a ha
      rw [hm] at ha
      obtain ⟨ha2, hne4⟩ := mem_replaceDrop_ne '(' _ a ha
      obtain ⟨ha3, hne3⟩ := mem_replaceDrop_ne ')' _ a ha2
      obtain ⟨ha4, hne1⟩ := mem_replaceDrop_ne ' ' l a ha3
      exact ⟨hne1, fun e => hl (e ▸ ha4), hne3, hne4⟩
    rw [replaceDrop_eq_self ' ' m (fun hsp => ((hmem ' ' hsp).1) rfl),
        replaceChar_eq_self ',' ' ' m (fun hcm => ((hmem ',' hcm).2.1) rfl),
        replaceDrop_eq_self ')' m (fun hp => ((hmem ')' hp).2.2.1) rfl),
        replaceDrop_eq_self '(' m (fun hp => ((hmem '(' hp).2.2.2) rfl)]
  unfold parse_dpnd
  rw [toList_mk]
  exact congrArg String.mk (main x.toList h)

theorem parse_dpnd_idempotent_no_comma_witness :
    parse_dpnd (parse_dpnd "libfoo (>= 1.0) libbar") = parse_dpnd "libfoo (>= 1.0) libbar" :=
  parse_dpnd_idempotent_no_comma "libfoo (>= 1.0) libbar" (by decide)

theorem pyRound3_neg_one : pyRound3 (-1) = -1 := by
  unfold pyRound3 roundHalfToEven
  have h0 : ((-1 : ℚ) * 1000) = ((-1000 : ℤ) : ℚ) := by norm_num
  rw [h0, Int.floor_intCast]
  norm_num

/-- Claim C9: the build executor always returns a 4-tuple
`(hash, wall_time, cpu_user, cpu_system)` in which each time is a multiple
of 1/1000 (rounded to 3 decimal places), and whenever retrieving the
artifact hash fails — the caught try-block raises, modelled by
`hashOut = none` — it returns the empty hash and the sentinel `-1.0` for
all three times.  Non-fatality is reflected by `compile_bin` being a total
function: the exception is consumed inside it and the caller always
receives this tuple. -/
theorem compile_bin_failure_sentinel (hashOut : Option String)
    (w0 w1 u0 u1 t0 t1 : ℚ) :
    (∃ a : ℤ, (compile_bin hashOut w0 w1 u0 u1 t0 t1).2.1 = (a : ℚ) / 1000) ∧
    (∃ b : ℤ, (compile_bin hashOut w0 w1 u0 u1 t0 t1).2.2.1 = (b : ℚ) / 1000) ∧
    (∃ c : ℤ, (compile_bin hashOut w0 w1 u0 u1 t0 t1).2.2.2 = (c : ℚ) / 1000) ∧
    (hashOut = none →
      compile_bin hashOut w0 w1 u0 u1 t0 t1 = ("", -1, -1, -1)) := by
  cases hashOut with
  | none =>
      refine ⟨⟨-1000, ?_⟩, ⟨-1000, ?_⟩, ⟨-1000, ?_⟩, fun _ => ?_⟩ <;>
        simp [compile_bin, pyRound3_neg_one]
  | some out =>
      refine ⟨⟨roundHalfToEven ((w1 - w0) * 1000), rfl⟩,
        ⟨roundHalfToEven ((u1 - u0) * 1000), rfl⟩,
        ⟨roundHalfToEven ((t1 - t0) * 1000), rfl⟩, fun h => by simp at h⟩

theorem compile_bin_failure_sentinel_witness :
    compile_bin none 0 0 0 0 0 0 = ("", -1, -1, -1) :=
  (compile_bin_failure_sentinel none 0 0 0 0 0 0).2.2.2 rfl

theorem takeWhile_eq_filter_of_sorted (bt : Int) (snaps : List Snapshot)
    (h : List.Pairwise (fun a b : Snapshot => a.time ≤ b.time) snaps) :
    snaps.takeWhile (fun sn => decide (sn.time < bt)) =
      snaps.filter (fun sn => decide (sn.time < bt)) := by
  induction snaps with
  | nil => rfl
  | cons a t ih =>
      rw [List.pairwise_cons] at h
      by_cases ha : a.time < bt
      · simp [List.takeWhile_cons, List.filter_cons, decide_eq_true ha, ih h.2]
      · have ht : t.filter (fun sn => decide (sn.time < bt)) = [] := by
          rw [List.filter_eq_nil_iff]
          intro b hb
          have hab := h.1 b hb
          simp only [decide_eq_true_eq]
          omega
        simp [List.takeWhile_cons, List.filter_cons, decide_eq_false ha, ht]

theorem getD_pair_eq_drop (l : List Snapshot) (h : 1 < l.length) :
    [l.getD (l.length - 2) ⟨0, ""⟩, l.getD (l.length - 1) ⟨0, ""⟩] =
      l.drop (l.length - 2) := by
  have h2 : l.length - 2 < l.length := by omega
  have h1 : l.length - 1 < l.length := by omega
  rw [List.getD_eq_getElem l _ h2, List.getD_eq_getElem l _ h1,
      List.drop_eq_getElem_cons h2]
  have e2 : l.length - 2 + 1 = l.length - 1 := by omega
  rw [e2, List.drop_eq_getElem_cons h1]
  have e1 : l.length - 1 + 1 = l.length := by omega
  rw [e1, List.drop_length]

/-- Claim C3: on a chronologically ascending listing, the selector picks
exactly the last two entries strictly earlier than the build timestamp when
at least two qualify, the single qualifying entry when exactly one does,
and nothing when none does (the source then only prints a warning, which is
non-fatal: the embedded function totally returns the empty selection). -/
theorem find_snapshots_sorted_selection (bt : Int) (snaps : List Snapshot)
    (hsorted : List.Pairwise (fun a b : Snapshot => a.time ≤ b.time) snaps) :
    (2 ≤ (qualifying bt snaps).length →
      find_snapshots bt snaps =
        (qualifying bt snaps).drop ((qualifying bt snaps).length - 2)) ∧
    ((qualifying bt snaps).length = 1 →
      find_snapshots bt snaps = qualifying bt snaps) ∧
    ((qualifying bt snaps).length = 0 → find_snapshots bt snaps = []) := by
  have hq : snaps.takeWhile (fun sn => decide (sn.time < bt)) = qualifying bt snaps :=
    takeWhile_eq_filter_of_sorted bt snaps hsorted
  simp only [find_snapshots, hq]
  refine ⟨fun h2 => ?_, fun h1 => ?_, fun h0 => ?_⟩
  · rw [if_pos (by omega)]
    exact getD_pair_eq_drop _ (by omega)
  · rw [if_neg (by omega), if_pos h1]
    obtain ⟨a, ha⟩ := List.length_eq_one.mp h1
    rw [ha]
    rfl
  · rw [if_neg (by omega), if_neg (by omega)]

theorem find_snapshots_sorted_selection_witness :
    find_snapshots 4 [⟨1, "a"⟩, ⟨2, "b"⟩, ⟨3, "c"⟩] = [⟨2, "b"⟩, ⟨3, "c"⟩] :=
  ((find_snapshots_sorted_selection 4 [⟨1, "a"⟩, ⟨2, "b"⟩, ⟨3, "c"⟩]
      (by decide)).1 (by decide)).trans (by decide)

/-- Claim C4: every snapshot the selector emits has a timestamp strictly
earlier than the build timestamp — for every listing, sorted or not,
because only entries passing the `snaptime < build_time` test ever enter
`snapbuf`, and the selection indexes into `snapbuf`. -/
theorem find_snapshots_time_lt_build (bt : Int) (snaps : List Snapshot) :
    ∀ sn ∈ find_snapshots bt snaps, sn.time < bt := by
  intro sn hmem
  simp only [find_snapshots] at hmem
  have key : ∀ n, ∀ hn : n < (snaps.takeWhile (fun sn => decide (sn.time < bt))).length,
      ((snaps.takeWhile (fun sn => decide (sn.time < bt))).getD n ⟨0, ""⟩).time < bt := by
    intro n hn
    rw [List.getD_eq_getElem _ _ hn]
    exact of_decide_eq_true
      (List.mem_takeWhile_imp (p := fun sn : Snapshot => decide (sn.time < bt))
        (List.getElem_mem hn))
  split_ifs at hmem with hlen1 hlen2
  · rcases List.mem_pair.mp hmem with h | h <;> rw [h]
    · exact key _ (by omega)
    · exact key _ (by omega)
  · rcases List.mem_singleton.mp hmem with h
    rw [h]
    exact key _ (by omega)
  · exact absurd hmem (List.not_mem_nil sn)

theorem find_snapshots_time_lt_build_witness :
    (Snapshot.mk 0 "x").time < 1 :=
  find_snapshots_time_lt_build 1 [⟨0, "x"⟩] ⟨0, "x"⟩ (by decide)

theorem getD_one_eq_tail_headD (r : List (List Char)) : r.getD 1 [] = r.tail.headD [] := by
  cases r with
  | nil => rfl
  | cons x rt => cases rt <;> rfl

theorem splitCh_headD (c : Char) (l : List Char) :
    (splitCh c l).headD [] = l.takeWhile (fun a => a != c) := by
  induction l with
  | nil => rfl
  | cons a t ih =>
      by_cases hac : a = c
      · subst hac
        simp [splitCh]
      · have e : splitCh c (a :: t) =
            (a :: (splitCh c t).headD []) :: (splitCh c t).tail := by
          simp [splitCh, hac]
        rw [e, List.headD_cons, ih]
        simp [List.takeWhile_cons, hac]

theorem splitCh_getD_one (c : Char) (l : List Char) (h : c ∈ l) :
    (splitCh c l).getD 1 [] =
      ((l.dropWhile (fun a => a != c)).tail).takeWhile (fun a => a != c) := by
  induction l with
  | nil => cases h
  | cons a t ih =>
      rw [getD_one_eq_tail_headD]
      by_cases hac : a = c
      · subst hac
        have e : splitCh a (a :: t) = [] :: splitCh a t := by
          simp [splitCh]
        rw [e]
        simp only [List.tail_cons]
        rw [splitCh_headD]
        simp [List.dropWhile_cons]
      · have e : splitCh c (a :: t) =
            (a :: (splitCh c t).headD []) :: (splitCh c t).tail := by
          simp [splitCh, hac]
        rw [e]
        simp only [List.tail_cons]
        have hct : c ∈ t := by
          cases h with
          | head => exact absurd rfl hac
          | tail _ h2 => exact h2
        rw [← getD_one_eq_tail_headD, ih hct]
        simp [List.dropWhile_cons, hac]

theorem getD_one_map_mk (r : List (List Char)) :
    (r.map (fun w => (⟨w⟩ : String))).getD 1 "" = ⟨r.getD 1 []⟩ := by
  cases r with
  | nil => rfl
  | cons x rt => cases rt <;> rfl

theorem pySplitOn_getD_one (v : String) (h : ':' ∈ v.toList) :
    (pySplitOn ':' v).getD 1 "" = upToFirstColon (afterFirstColon v) := by
  unfold pySplitOn upToFirstColon afterFirstColon
  rw [getD_one_map_mk, splitCh_getD_one ':' v.toList h]
  rfl

theorem upToFirstColon_eq_self (v : String) (h : ':' ∉ v.toList) :
    upToFirstColon v = v := by
  unfold upToFirstColon
  have e : v.toList.takeWhile (fun a => a != ':') = v.toList := by
    refine List.takeWhile_eq_self_iff.mpr ?_
    intro a ha
    have hne : a ≠ ':' := fun hmem => h (hmem ▸ ha)
    simp [hne]
  rw [e]
  cases v
  rfl

theorem checksumScan_preserves (words : List String) (s : ParseState) :
    (checksumScan words s).version = s.version ∧
    (checksumScan words s).short_version = s.short_version ∧
    (checksumScan words s).name = s.name ∧
    (checksumScan words s).dir = s.dir ∧
    (checksumScan words s).first = s.first ∧
    (checksumScan words s).i = s.i ∧
    (checksumScan words s).dep = s.dep ∧
    (checksumScan words s).dflag = s.dflag := by
  unfold checksumScan
  split <;> simp

theorem armFlags_preserves (line : String) (s : ParseState) :
    (armFlags line s).version = s.version ∧
    (armFlags line s).short_version = s.short_version ∧
    (armFlags line s).name = s.name ∧
    (armFlags line s).dir = s.dir ∧
    (armFlags line s).sha = s.sha ∧
    (armFlags line s).size = s.size ∧
    (armFlags line s).binary = s.binary ∧
    (armFlags line s).first = s.first ∧
    (armFlags line s).i = s.i ∧
    (armFlags line s).dep = s.dep := by
  unfold armFlags
  dsimp only
  split <;> split <;> simp

/-- Claim C5 counterexample: on the line `Version: 1:2:3` the parser sets
`short_version` to `words[1].split(':')[1]`, the piece strictly between the
first and second colon — here `"2"` — and not to the substring after the
first colon, `"2:3"`, as the claim states. -/
theorem version_epoch_double_colon_cex :
    (step "pkg" initState "Version: 1:2:3").version = "1:2:3" ∧
    (step "pkg" initState "Version: 1:2:3").short_version = "2" ∧
    (step "pkg" initState "Version: 1:2:3").short_version ≠ afterFirstColon "1:2:3" := by
  decide

/-- Claim C5 (amended): when the phase-1 parser processes a `Version:` line
whose value `v` contains a `:`, it sets `version` to the full value and
`short_version` to the substring after the first `:` truncated before the
next `:` (if any) — for values with a single colon this is exactly the
substring after the colon; when `v` contains no `:`, both fields become
`v`.  In particular `2:1.4-3` yields `("2:1.4-3", "1.4-3")` and `1.4-3`
yields `("1.4-3", "1.4-3")` (see the witness). -/
theorem version_branch_amended (p line v : String) (s : ParseState)
    (hd : s.dflag = false) (hw : pySplit line = ["Version:", v]) :
    (step p s line).version = v ∧
    (step p s line).short_version =
      (if ':' ∈ v.toList then upToFirstColon (afterFirstColon v) else v) := by
  unfold step
  rw [if_neg (by simp [hd]), hw]
  have hcs := checksumScan_preserves ["Version:", v] (keywordScan p line ["Version:", v] s)
  have haf := armFlags_preserves line
    (checksumScan ["Version:", v] (keywordScan p line ["Version:", v] s))
  have hkv : (keywordScan p line ["Version:", v] s).version = v ∧
      (keywordScan p line ["Version:", v] s).short_version =
        (if ':' ∈ v.toList then upToFirstColon (afterFirstColon v) else v) := by
    simp only [keywordScan]
    rw [if_pos trivial]
    simp only [List.headD_cons]
    by_cases hc : ':' ∈ v.toList
    · rw [if_pos hc, if_pos hc]
      exact ⟨rfl, pySplitOn_getD_one v hc⟩
    · rw [if_neg hc, if_neg hc]
      exact ⟨rfl, rfl⟩
  refine ⟨?_, ?_⟩
  · rw [haf.1, hcs.1, hkv.1]
  · rw [haf.2.1, hcs.2.1, hkv.2]

theorem version_branch_amended_witness :
    ((step "pkg" initState "Version: 2:1.4-3").version = "2:1.4-3" ∧
      (step "pkg" initState "Version: 2:1.4-3").short_version = "1.4-3") ∧
    ((step "pkg" initState "Version: 1.4-3").version = "1.4-3" ∧
      (step "pkg" initState "Version: 1.4-3").short_version = "1.4-3") := by
  have h1 := version_branch_amended "pkg" "Version: 2:1.4-3" "2:1.4-3" initState rfl (by decide)
  have h2 := version_branch_amended "pkg" "Version: 1.4-3" "1.4-3" initState rfl (by decide)
  exact ⟨⟨h1.1, by rw [h1.2]; decide⟩, ⟨h2.1, by rw [h2.2]; decide⟩⟩

theorem keywordScan_inv (p line : String) (words : List String) (s : ParseState)
    (h : upToFirstColon (stripEpoch s.version) = s.short_version) :
    upToFirstColon (stripEpoch (keywordScan p line words s).version) =
      (keywordScan p line words s).short_version := by
  cases words with
  | nil => simpa [keywordScan] using h
  | cons w0 ws =>
      simp only [keywordScan]
      by_cases hv : w0 = "Version:"
      · rw [if_pos hv]
        by_cases hc : ':' ∈ (ws.headD "").toList
        · rw [if_pos hc]
          show upToFirstColon (stripEpoch (ws.headD "")) =
            (pySplitOn ':' (ws.headD "")).getD 1 ""
          rw [pySplitOn_getD_one _ hc]
          unfold stripEpoch
          rw [if_pos hc]
        · rw [if_neg hc]
          show upToFirstColon (stripEpoch (ws.headD "")) = ws.headD ""
          unfold stripEpoch
          rw [if_neg hc, upToFirstColon_eq_self _ hc]
      · rw [if_neg hv]
        by_cases hb : w0 = "Binary:"
        · rw [if_pos hb]
          split <;> simpa using h
        · rw [if_neg hb]
          by_cases hsrc : w0 = "Source:"
          · rw [if_pos hsrc]
            simpa using h
          · rw [if_neg hsrc]
            exact h

theorem step_version_inv (p line : String) (s : ParseState)
    (h : upToFirstColon (stripEpoch s.version) = s.short_version) :
    upToFirstColon (stripEpoch (step p s line).version) = (step p s line).short_version := by
  unfold step
  by_cases hd : s.dflag
  · rw [if_pos (by simp [hd])]
    simpa [depStep] using h
  · rw [if_neg (by simp [hd])]
    have h1 := keywordScan_inv p line (pySplit line) s h
    have h2 := checksumScan_preserves (pySplit line) (keywordScan p line (pySplit line) s)
    have h3 := armFlags_preserves line
      (checksumScan (pySplit line) (keywordScan p line (pySplit line) s))
    rw [h3.1, h3.2.1, h2.1, h2.2.1]
    exact h1

theorem foldl_version_inv (p : String) (lines : List String) :
    ∀ s : ParseState, upToFirstColon (stripEpoch s.version) = s.short_version →
      upToFirstColon (stripEpoch (lines.foldl (step p) s).version) =
        (lines.foldl (step p) s).short_version := by
  induction lines with
  | nil => exact fun s h => h
  | cons l ls ih => exact fun s h => ih _ (step_version_inv p l s h)

/-- Claim C6 counterexample: for a report containing `Version: 1:2:3` the
parser ends with `version = "1:2:3"` and `short_version = "2"`, but
removing the epoch prefix (everything up to and including the first `:`)
from `version` yields `"2:3"`, not `short_version`. -/
theorem version_invariant_cex :
    stripEpoch (parseReport "pkg" ["Version: 1:2:3"]).version ≠
      (parseReport "pkg" ["Version: 1:2:3"]).short_version := by
  decide

/-- Claim C6 (amended): for every report the parser accepts, removing any
epoch prefix (the part up to and including the first `:`) from `version`
yields a string whose prefix before its first `:` is exactly
`short_version`; when `version` has a single colon or none, this prefix is
the whole epoch-stripped string, so the original claim holds there. -/
theorem version_invariant_amended (p : String) (lines : List String) :
    upToFirstColon (stripEpoch (parseReport p lines).version) =
      (parseReport p lines).short_version :=
  foldl_version_inv p lines initState rfl

theorem depStep_spec (line : String) (s : ParseState) :
    depStep line s = { s with
      i := s.i + 1
      first := false
      dep := s.dep ++ (if s.first then ""
        else if (s.i + 1) % 3 = 1 ∧ line ≠ "" then " \\ \n" else " ") ++ parse_dpnd line } :=
  rfl

theorem step_dep_phase (p line : String) (s : ParseState) (hd : s.dflag = true) :
    step p s line = depStep line s := by
  unfold step
  rw [if_pos (by simp [hd])]

theorem foldl_dep_textFrom (p : String) (ls : List String) :
    ∀ s : ParseState, s.dflag = true → s.first = false →
      (ls.foldl (step p) s).dep = s.dep ++ depTextFrom (s.i + 1) ls := by
  induction ls with
  | nil =>
      intro s _ _
      simp [depTextFrom, String.append_empty]
  | cons l ls ih =>
      intro s hd hf
      rw [List.foldl_cons, step_dep_phase p l s hd, depStep_spec,
        ih _ (by simp [hd]) (by simp)]
      simp [depTextFrom, depSep, hf, String.append_assoc]

/-- Claim C7 counterexample: for dependency lines `a`, `b`, `c`, `""` the
parser writes a plain space before the blank 4th accumulated line even
though the 3rd accumulated line `c` is non-blank, producing `"a b c "`;
a continuation separator after every third non-blank accumulated line, as
the claim states, would give `"a b c \ <newline>"` instead. -/
theorem dep_separator_cex :
    (parseReport "pkg" ["Installed-Build-Depends:", "a", "b", "c", ""]).dep = "a b c " ∧
    (parseReport "pkg" ["Installed-Build-Depends:", "a", "b", "c", ""]).dep ≠
      "a b c \\ \n" := by
  decide

/-- Claim C7 (amended): in the dependency phase each raw line is passed
through the normalizer `parse_dpnd` and accumulated into the recipe's
install text; before the `k`-th accumulated line (`k ≥ 2`, counting every
dependency line, blank or not) a line-continuation separator is written
exactly when `k % 3 = 1` and that line — the one about to be appended — is
non-blank, and a plain single space otherwise; no separator precedes the
first accumulated line. -/
theorem dep_text_amended (p : String) (s : ParseState) (ls : List String)
    (hd : s.dflag = true) (hf : s.first = true) (hi : s.i = 0) :
    (ls.foldl (step p) s).dep = s.dep ++ depText ls := by
  cases ls with
  | nil => simp [depText, String.append_empty]
  | cons l ls2 =>
      rw [List.foldl_cons, step_dep_phase p l s hd, depStep_spec,
        foldl_dep_textFrom p ls2 _ (by simp [hd]) (by simp)]
      simp [depText, hf, hi, String.append_assoc, String.append_empty]

theorem dep_text_amended_witness :
    (["attr", "acl"].foldl (step "pkg") { initState with dflag := true }).dep =
      { initState with dflag := true }.dep ++ depText ["attr", "acl"] :=
  dep_text_amended "pkg" { initState with dflag := true } ["attr", "acl"] rfl rfl rfl

theorem foldl_dep_phase_frame (p : String) (ls : List String) :
    ∀ s : ParseState, s.dflag = true →
      (ls.foldl (step p) s).dflag = true ∧
      (ls.foldl (step p) s).version = s.version ∧
      (ls.foldl (step p) s).short_version = s.short_version ∧
      (ls.foldl (step p) s).name = s.name ∧
      (ls.foldl (step p) s).dir = s.dir ∧
      (ls.foldl (step p) s).sha = s.sha ∧
      (ls.foldl (step p) s).size = s.size ∧
      (ls.foldl (step p) s).binary = s.binary ∧
      ∃ t : String, (ls.foldl (step p) s).dep = s.dep ++ t := by
  induction ls with
  | nil =>
      intro s hd
      exact ⟨hd, rfl, rfl, rfl, rfl, rfl, rfl, rfl, "", (String.append_empty s.dep).symm⟩
  | cons l ls ih =>
      intro s hd
      rw [List.foldl_cons, step_dep_phase p l s hd, depStep_spec]
      obtain ⟨h1, h2, h3, h4, h5, h6, h7, h8, t, ht⟩ :=
        ih { s with
          i := s.i + 1
          first := false
          dep := s.dep ++ (if s.first then ""
            else if (s.i + 1) % 3 = 1 ∧ l ≠ "" then " \\ \n" else " ") ++ parse_dpnd l }
          (by simp [hd])
      refine ⟨h1, ?_, ?_, ?_, ?_, ?_, ?_, ?_, ?_⟩
      · rw [h2]
      · rw [h3]
      · rw [h4]
      · rw [h5]
      · rw [h6]
      · rw [h7]
      · rw [h8]
      · refine ⟨(if s.first then ""
          else if (s.i + 1) % 3 = 1 ∧ l ≠ "" then " \\ \n" else " ") ++ parse_dpnd l ++ t, ?_⟩
        rw [ht]
        simp [String.append_assoc]

/-- Claim C10: the metadata-phase switch is one-way and framing: a line
exactly equal to `Installed-Build-Depends:` switches `dflag` on, and from
any state already in the dependency phase, processing any further lines
keeps `dflag` set, leaves every captured metadata field (`version`,
`short_version`, `name`, `dir`, `sha`, `size`, `binary`) unchanged, and
only appends dependency text to the recipe. -/
theorem dep_phase_one_way_frame (p : String) :
    (∀ s : ParseState, s.dflag = false →
      (step p s "Installed-Build-Depends:").dflag = true) ∧
    (∀ (s : ParseState) (ls : List String), s.dflag = true →
      (ls.foldl (step p) s).dflag = true ∧
      (ls.foldl (step p) s).version = s.version ∧
      (ls.foldl (step p) s).short_version = s.short_version ∧
      (ls.foldl (step p) s).name = s.name ∧
      (ls.foldl (step p) s).dir = s.dir ∧
      (ls.foldl (step p) s).sha = s.sha ∧
      (ls.foldl (step p) s).size = s.size ∧
      (ls.foldl (step p) s).binary = s.binary ∧
      ∃ t : String, (ls.foldl (step p) s).dep = s.dep ++ t) := by
  refine ⟨?_, fun s ls hd => foldl_dep_phase_frame p ls s hd⟩
  intro s hd
  unfold step
  rw [if_neg (by simp [hd])]
  simp only [armFlags]
  rw [if_pos trivial]

theorem dep_phase_one_way_frame_witness :
    (step "pkg" initState "Installed-Build-Depends:").dflag = true :=
  (dep_phase_one_way_frame "pkg").1 initState rfl

end ReproCrawler
